import Mathlib

/-!
Verification of the GoULC HTTP client/auth subsystem against its
specification. The Go sources are shallowly embedded: Go strings and byte
slices become Lean strings, machine integers become Int, time instants
become Int (the claims only compare instants), float64 arithmetic over
small integer counts becomes exact rational arithmetic, and the reference
semantics of Go maps (http.Header, url.Values) is made explicit through a
small heap of map values addressed by index. Stateful methods take the
state they read and return the state they leave behind.
-/

/-- Go strings.Join (Go standard library): the elements of the list
concatenated with the separator between consecutive elements. -/
def stringsJoin : List String → String → String
  | [], _ => ""
  | [a], _ => a
  | a :: rest, sep => a ++ sep ++ stringsJoin rest sep

/-! ## Digest authentication (auth package, RFC 7616) -/

/-- DigestSeparator separates components in digest calculation. -/
def DigestSeparator : String := ":"

/-- DigestQOPAuth: authentication only. -/
def DigestQOPAuth : String := "auth"

/-- DigestQOPAuthInt: authentication with integrity protection. -/
def DigestQOPAuthInt : String := "auth-int"

/-- Standard hash algorithm names of the auth package (DigestAlgo values). -/
def DigestMD5 : String := "md5"

def DigestSHA256 : String := "sha-256"

def DigestSHA512 : String := "sha-512"

def DigestSHA512256 : String := "sha-512-256"

def DigestMD5SESS : String := "md5-sess"

def DigestSHA256SESS : String := "sha-256-sess"

def DigestSHA512SESS : String := "sha-512-sess"

def DigestSHA512256SESS : String := "sha-512-256-sess"

/-- ErrUnknownAlgorithm's message, returned by DigestParameters.Hash in place
of a hash when the algorithm is not supported. -/
def ErrUnknownAlgorithmMsg : String := "unknown algorithm provided"

/-- The external hash primitives (Go crypto/md5, crypto/sha256, crypto/sha512,
each followed by hex encoding). The repository selects among them by algorithm
name; the digest computation is parametric in the primitives themselves.
Inputs are Go byte strings, modelled as Lean strings. -/
structure HashPrims where
  md5 : String → String
  sha256 : String → String
  sha512 : String → String
  sha512_256 : String → String

/-- DigestParameters of the auth package (RFC 7616 section 3.4 fields). -/
structure DigestParameters where
  Algorithm : String
  Realm : String
  URI : String
  QOP : String
  Nonce : String
  CNonce : String
  NC : String
  UserHash : Bool
  Opaque : String
deriving DecidableEq

/-- DigestParameters.Hash: dispatches on the algorithm name, computing the
selected hash; an unsupported algorithm yields the ErrUnknownAlgorithm
message instead of a hash. -/
def DigestParameters.Hash (prim : HashPrims) (d : DigestParameters) (s : String) : String :=
  if d.Algorithm = DigestSHA256 ∨ d.Algorithm = DigestSHA256SESS then
    prim.sha256 s
  else if d.Algorithm = DigestSHA512256 ∨ d.Algorithm = DigestSHA512256SESS then
    prim.sha512_256 s
  else if d.Algorithm = DigestSHA512 ∨ d.Algorithm = DigestSHA512SESS then
    prim.sha512 s
  else if d.Algorithm = DigestMD5 ∨ d.Algorithm = DigestMD5SESS then
    prim.md5 s
  else
    ErrUnknownAlgorithmMsg

/-- Digest authenticator state. -/
structure Digest where
  Username : String
  Password : String
  Parameters : DigestParameters
deriving DecidableEq

/-- Digest.A1 (RFC 7616 section 3.4.2): username:realm:password, further
combined with nonce and cnonce for session-based (-sess) algorithms. -/
def Digest.A1 (prim : HashPrims) (d : Digest) : String :=
  let a1 := stringsJoin [d.Username, d.Parameters.Realm, d.Password] DigestSeparator
  if String.endsWith d.Parameters.Algorithm "-sess" then
    stringsJoin [d.Parameters.Hash prim a1, d.Parameters.Nonce, d.Parameters.CNonce]
      DigestSeparator
  else
    a1

/-- Digest.A2 (RFC 7616 section 3.4.3): method:uri, with the body hash
appended under auth-int quality of protection. -/
def Digest.A2 (prim : HashPrims) (d : Digest) (method : String) (body : String) : String :=
  if d.Parameters.QOP = DigestQOPAuthInt then
    stringsJoin [method, d.Parameters.URI, d.Parameters.Hash prim body] DigestSeparator
  else
    stringsJoin [method, d.Parameters.URI] DigestSeparator

/-- Digest.Response (RFC 7616 section 3.4.1, RFC 2069 fallback): the response
value joined from the keyed digest of A1, the nonce bookkeeping and the hash
of A2. -/
def Digest.Response (prim : HashPrims) (d : Digest) (a1 a2 : String) : String :=
  if d.Parameters.QOP = DigestQOPAuth ∨ d.Parameters.QOP = DigestQOPAuthInt then
    stringsJoin [d.Parameters.Hash prim a1, d.Parameters.Nonce, d.Parameters.NC,
      d.Parameters.CNonce, d.Parameters.QOP, d.Parameters.Hash prim a2] DigestSeparator
  else
    stringsJoin [d.Parameters.Hash prim a1, d.Parameters.Nonce,
      d.Parameters.Hash prim a2] DigestSeparator

/-! ## Basic authentication (auth package, RFC 2617 section 2) -/

/-- Go UTF-8 encoding of one character (the byte sequence of Go's string
conversion, Go standard library). -/
def charUtf8 (c : Char) : List Nat :=
  let n := c.toNat
  if n < 128 then [n]
  else if n < 2048 then [192 + n / 64, 128 + n % 64]
  else if n < 65536 then [224 + n / 4096, 128 + (n / 64) % 64, 128 + n % 64]
  else [240 + n / 262144, 128 + (n / 4096) % 64, 128 + (n / 64) % 64, 128 + n % 64]

/-- The bytes of a Go string (UTF-8). -/
def utf8Bytes (s : String) : List Nat :=
  (s.data.map charUtf8).flatten

/-- The standard base64 alphabet (Go encoding/base64 StdEncoding). -/
def base64Table : List Char :=
  "ABCDEFGHIJKLMNOPQRSTUVWXYZabcdefghijklmnopqrstuvwxyz0123456789+/".data

/-- The base64 digit for a 6-bit value. -/
def b64c (n : Nat) : Char := base64Table.getD n '?'

/-- Go base64.StdEncoding.EncodeToString (Go standard library): standard
base64 with padding. -/
def base64Encode : List Nat → String
  | [] => ""
  | [b0] => String.mk [b64c (b0 / 4), b64c (b0 % 4 * 16), '=', '=']
  | [b0, b1] => String.mk [b64c (b0 / 4), b64c (b0 % 4 * 16 + b1 / 16), b64c (b1 % 16 * 4), '=']
  | b0 :: b1 :: b2 :: rest =>
    String.mk [b64c (b0 / 4), b64c (b0 % 4 * 16 + b1 / 16),
      b64c (b1 % 16 * 4 + b2 / 64), b64c (b2 % 64)] ++ base64Encode rest

/-- BasicSeparator separates user id and password. -/
def BasicSeparator : String := ":"

/-- BasicHeaderName is the HTTP header name for authentication. -/
def BasicHeaderName : String := "Authorization"

/-- BasicValuePrefix starts the basic authentication value. -/
def BasicValuePrefix : String := "Basic "

/-- BasicUserPass: the base64 of userid and password separated by a colon. -/
def BasicUserPass (userid password : String) : String :=
  base64Encode (utf8Bytes (userid ++ BasicSeparator ++ password))

/-- Errors of the auth package's constructors. -/
inductive AuthError
  | noUserID
  | noPassword
  | noRealm
  | noNonce
  | noURI
  | unknownAlgorithm
deriving DecidableEq

/-- Basic authenticator state. The password is a hided.String, whose
underlying value is the plain string. -/
structure Basic where
  UserID : String
  Password : String
deriving DecidableEq

/-- NewBasic: rejects an empty user id or an empty password. -/
def NewBasic (userID password : String) : Except AuthError Basic :=
  if userID = "" then .error .noUserID
  else if password = "" then .error .noPassword
  else .ok { UserID := userID, Password := password }

/-- Basic.Header: ignores method, url and body; returns the Authorization
header with the Basic value and a nil error. The url argument is kept as an
opaque string since Basic never reads it. -/
def Basic.Header (b : Basic) (_method _url _body : String) :
    String × String × Option AuthError :=
  (BasicHeaderName, BasicValuePrefix ++ BasicUserPass b.UserID b.Password, none)

/-! ## HTTP client package: data model -/

/-- The fields of Go's net/url URL that the client package reads or writes.
User models the *url.Userinfo pointer (none for nil). -/
structure URLm where
  Scheme : String
  Host : String
  Path : String
  RawQuery : String
  User : Option String := none
deriving DecidableEq

/-- A simplified model of net/url URL.String (Go standard library); the
claims never inspect its output, it only feeds trace and history entries. -/
def urlString (u : URLm) : String :=
  u.Scheme ++ "://" ++ u.Host ++ u.Path ++
    (if u.RawQuery = "" then "" else "?" ++ u.RawQuery)

/-- ErrorHistory entry: one completed request. Timestamps are instants in
seconds (the claims only compare instants and take 60-second differences). -/
structure ErrorHistory where
  URL : String
  StatusCode : Int
  Timestamp : Int
  IsError : Bool
deriving DecidableEq

/-- Redirects: one recorded redirect hop. -/
structure Redirects where
  URL : String
  Status : String
  From : String
  FromStatus : String
  Timestamp : Int
deriving DecidableEq

/-- Options of the client. MaxRedirect and Timeout keep Go's signed integers.
RateLimiter models the Ratelimiter collaborator by the outcome its Wait
returns: none is a nil limiter, some none a Wait that permits, some (some e)
a Wait that fails with error e. -/
structure Options where
  OnlyHTTPS : Bool
  Follow : Bool
  FollowAuth : Bool
  FollowReferer : Bool
  MaxRedirect : Int
  Timeout : Int
  DisableTLSVerify : Bool
  RateLimiter : Option (Option String) := none
deriving DecidableEq

/-- OptDefault: the secure default options (timeout in seconds). -/
def OptDefault : Options :=
  { OnlyHTTPS := true, Follow := true, FollowAuth := false, FollowReferer := true,
    MaxRedirect := 2, Timeout := 35, DisableTLSVerify := false, RateLimiter := none }

/-- The observable contents of a Go header or query map (http.Header,
url.Values): names to value lists. -/
abbrev GoMap := List (String × List String)

/-- A stored Go map: both http.Header and url.Values map names to []string
slices, and slices are themselves references to backing arrays, so a stored
map holds slice addresses, not slice contents. -/
abbrev RefMap := List (String × Nat)

/-- Go maps and slices are reference types: the heap holds the map tables and
the slice backing arrays, clients hold map addresses and stored maps hold
slice addresses. Allocation appends, so an address is valid once below the
respective count. -/
structure Heap where
  maps : List RefMap
  slices : List (List String) := []
deriving DecidableEq

/-- Number of allocated maps. -/
def Heap.size (h : Heap) : Nat := h.maps.length

/-- The stored map at an address (the empty map for a dangling address). -/
def Heap.lookup (h : Heap) (i : Nat) : RefMap := h.maps.getD i []

/-- Allocate a fresh map cell initialized to m; returns the heap and the
address. -/
def Heap.alloc (h : Heap) (m : RefMap) : Heap × Nat :=
  ({ h with maps := h.maps ++ [m] }, h.maps.length)

/-- Mutate the map table at an address in place: an insertion, update or
deletion of keys through one reference to the map. -/
def Heap.updateAt (h : Heap) (i : Nat) (f : RefMap → RefMap) : Heap :=
  { h with maps := h.maps.set i (f (h.lookup i)) }

/-- Number of allocated slices. -/
def Heap.sliceCount (h : Heap) : Nat := h.slices.length

/-- The contents of the slice at an address. -/
def Heap.sliceAt (h : Heap) (i : Nat) : List String := h.slices.getD i []

/-- Allocate a fresh slice; returns the heap and the address. -/
def Heap.allocSlice (h : Heap) (v : List String) : Heap × Nat :=
  ({ h with slices := h.slices ++ [v] }, h.slices.length)

/-- Mutate the slice at an address in place: an element write such as
Go's m[k][i] = v seen through any map sharing the slice. -/
def Heap.updateSlice (h : Heap) (i : Nat) (g : List String → List String) : Heap :=
  { h with slices := h.slices.set i (g (h.sliceAt i)) }

/-- The observable contents of a stored map: every value slice
dereferenced. -/
def Heap.derefMap (h : Heap) (m : RefMap) : GoMap :=
  m.map fun p => (p.1, h.sliceAt p.2)

/-- Allocate one fresh slice per value of the given contents, as Go does when
building a map of fresh slices (url.ParseQuery's result, or the value copies
made by http.Header.Clone). -/
def Heap.allocSlices : Heap → GoMap → Heap × RefMap
  | h, [] => (h, [])
  | h, (k, v) :: rest =>
    let (h1, a) := h.allocSlice v
    let (h2, m) := h1.allocSlices rest
    (h2, (k, a) :: m)

/-- Client state. The logger, mutex, contexts and the Auth reference are not
observable by the claims; closerCount is the length of the closer callback
list, Header and Query are heap addresses because Go maps alias. -/
structure Client where
  closed : Bool
  closerCount : Nat
  Options : Options
  headerRef : Nat
  queryRef : Nat
  URL : URLm
  ErrorHistory : List ErrorHistory
deriving DecidableEq

/-- The constructor errors of the client package reachable in this model. -/
inductive ClientError
  | invalidTimeout
  | invalidRedirectLimit
  | invalidQuery
deriving DecidableEq

/-- utils.PathFormatting: remove a superfluous trailing slash and add a
leading slash when missing. -/
def PathFormatting (p : String) : String :=
  if p = "" ∨ p = "/" then "/"
  else
    let p := if p.front ≠ '/' then "/" ++ p else p
    let p := if p.back = '/' then p.dropRight 1 else p
    p

/-- A model of net/url ParseQuery (Go standard library) restricted to
well-formed queries: splits on ampersands into key=value pairs without
percent-decoding. The stdlib fails only on malformed escapes, which no claim
exercises, so this model never fails. -/
def parseQuery (s : String) : Except ClientError GoMap :=
  if s = "" then .ok []
  else .ok ((s.splitOn "&").map fun kv =>
    match kv.splitOn "=" with
    | [] => (kv, [""])
    | k :: v => (k, [String.intercalate "=" v]))

/-- New: the client constructor, embedded from the point where the server URL
string has been parsed (emptiness check, trailing-slash trim and url.Parse
act on the raw string and are modelled by the given parsed URL). Validates the
options, allocates the header and query maps, formats the path, parses the
query, and applies the OnlyHTTPS check. The source performs the HTTPS rewrite
on its local parsedURL variable after main.URL has already been copied from
it; the dead local below keeps that ordering visible. -/
def New (h : Heap) (parsedURL : URLm) (opt : Option Options) :
    Heap × Except ClientError Client :=
  let optV : Except ClientError Options :=
    match opt with
    | some o =>
      if o.Timeout < 0 then .error .invalidTimeout
      else if o.MaxRedirect < 0 then .error .invalidRedirectLimit
      else .ok o
    | none => .ok OptDefault
  match optV with
  | .error e => (h, .error e)
  | .ok o =>
    let (h1, headerRef) := h.alloc []
    let (h2, _queryRef0) := h1.alloc []
    let mainURL := { parsedURL with Path := PathFormatting parsedURL.Path }
    match parseQuery mainURL.RawQuery with
    | .error e => (h2, .error e)
    | .ok q =>
      let (h3, qm) := h2.allocSlices q
      let (h4, queryRef) := h3.alloc qm
      let _parsedURL :=
        if o.OnlyHTTPS ∧ parsedURL.Scheme = "http" then
          { parsedURL with Scheme := "https" }
        else parsedURL
      (h4, .ok { closed := false, closerCount := 0, Options := o,
                 headerRef := headerRef, queryRef := queryRef, URL := mainURL,
                 ErrorHistory := [] })

/-- Clone: returns the nil sentinel (none) when the client is closed;
otherwise copies the header and query maps into fresh map cells, gives the
clone a fresh empty error history and no closers, and registers the clone's
Close on the parent (closerCount). The two copies differ: c.Header.Clone()
is a deep copy, so the clone's header gets fresh value slices holding the
same contents, while maps.Clone(c.Query) is shallow, so the clone's query
cell holds the very same slice addresses as the source's. Returns
(heap, updated parent, clone). The derived context and the Auth clone are
not observable here. -/
def Client.Clone (h : Heap) (c : Client) : Heap × Client × Option Client :=
  if c.closed then (h, c, none)
  else
    let copied := h.allocSlices (h.derefMap (h.lookup c.headerRef))
    let (h1, hdr) := copied.1.alloc copied.2
    let (h2, qry) := h1.alloc (h1.lookup c.queryRef)
    let cl : Client :=
      { closed := c.closed, closerCount := 0, Options := c.Options,
        headerRef := hdr, queryRef := qry, URL := c.URL, ErrorHistory := [] }
    (h2, { c with closerCount := c.closerCount + 1 }, some cl)

/-- The observable outcome of running a Go method that may hit a nil-pointer
dereference. -/
inductive GoResult (α : Type)
  | ok (a : α)
  | nilPanic
deriving DecidableEq

/-- NewChild: clones the parent and extends the clone's URL path. The source
dereferences the clone (child.URL, and child.URL.String() in the debug log)
without a nil check, so a closed parent, whose Clone returns nil, makes
NewChild panic: the nilPanic branch. Returns (heap, updated parent, child). -/
def Client.NewChild (h : Heap) (c : Client) (path : String) :
    GoResult (Heap × Client × Client) :=
  match Client.Clone h c with
  | (h2, c2, some child) =>
    let child :=
      if path ≠ "" then
        let newPath := PathFormatting path
        if child.URL.Path = "/" then
          { child with URL := { child.URL with Path := newPath } }
        else
          { child with URL := { child.URL with Path := child.URL.Path ++ newPath } }
      else child
    .ok (h2, c2, child)
  | (_, _, none) => .nilPanic

/-- calculateErrorRate: drops history entries not after now minus one minute,
appends the entry for the current request, stores the new history and returns
the error percentage. float64 arithmetic on these small counts is modelled
exactly in the rationals. -/
def Client.calculateErrorRate (c : Client) (statusCode : Int) (now : Int) :
    Client × ℚ :=
  let minTime := now - 60
  let newHistory := c.ErrorHistory.filter fun e => e.Timestamp > minTime
  let newHistory := newHistory ++
    [{ URL := urlString c.URL, StatusCode := statusCode, Timestamp := now,
       IsError := 400 ≤ statusCode }]
  let c2 := { c with ErrorHistory := newHistory }
  if newHistory.length = 0 then (c2, 0)
  else
    let errorCount := (newHistory.filter fun e => e.IsError).length
    (c2, (errorCount : ℚ) / (newHistory.length : ℚ) * 100)

/-! ## Redirect policy -/

/-- The slice of an http.Request that FollowRedirects touches: the target
URL, the headers, and req.Response.Status, the status line of the redirect
response that produced this candidate request. -/
structure Request where
  url : URLm
  header : List (String × String)
  responseStatus : String
deriving DecidableEq

/-- req.Header.Del: remove every entry of the named header. -/
def delHeader (hd : List (String × String)) (k : String) : List (String × String) :=
  hd.filter fun p => p.1 ≠ k

/-- The values an incoming header list holds under a name. -/
def getHeader (hd : List (String × String)) (k : String) : List String :=
  (hd.filter fun p => p.1 = k).map Prod.snd

/-- What the redirect callback returns: http.ErrUseLastResponse, ErrNoTrace,
ErrTooManyRedirects joined with the hop count, a rate-limiter error, or nil
(follow the redirect). -/
inductive RedirectDecision
  | useLastResponse
  | noTrace
  | tooManyRedirects (nb : Nat)
  | rateLimited (e : String)
  | follow
deriving DecidableEq

/-- One invocation of the redirect callback: its decision, the candidate
request after the in-place header and scheme mutations, and the trace slice
after the invocation. -/
structure RedirectStep where
  decision : RedirectDecision
  req : Request
  trace : Option (List Redirects)
deriving DecidableEq

/-- FollowRedirects: the callback the client installs as CheckRedirect. via
is the list of requests already made, oldest first; trace is the pointed-to
trace slice (none models a nil pointer). Follows the source order: the
Follow gate, the nil-trace guard, the Referer and cross-host Authorization
deletions, the trace append, the redirect-count check, the HTTPS upgrade and
the rate-limiter wait. -/
def Client.FollowRedirects (c : Client) (now : Int) (req : Request)
    (via : List Request) (trace : Option (List Redirects)) : RedirectStep :=
  if ¬ c.Options.Follow then ⟨.useLastResponse, req, trace⟩
  else
    match trace with
    | none => ⟨.noTrace, req, none⟩
    | some t =>
      let req := if ¬ c.Options.FollowReferer then
          { req with header := delHeader req.header "Referer" } else req
      let req := if req.url.Host ≠ c.URL.Host ∧ ¬ c.Options.FollowAuth then
          { req with header := delHeader req.header "Authorization" } else req
      let prev : Option Request := if via.length > 1 then via.getLast? else none
      let prevURL := match prev with | some p => urlString p.url | none => ""
      let prevStatus := match prev with | some p => p.responseStatus | none => ""
      let t := t ++ [{ URL := urlString req.url, Status := req.responseStatus,
                       From := prevURL, FromStatus := prevStatus, Timestamp := now }]
      let nb := via.length
      if (nb : Int) ≥ c.Options.MaxRedirect then ⟨.tooManyRedirects nb, req, some t⟩
      else
        let req := if c.Options.OnlyHTTPS ∧ req.url.Scheme = "http" then
            { req with url := { req.url with Scheme := "https" } } else req
        match c.Options.RateLimiter with
        | some (some e) => ⟨.rateLimited e, req, some t⟩
        | _ => ⟨.follow, req, some t⟩

/-- The transport's redirect loop against a target that always redirects to
itself: each round calls the callback on the constant candidate request with
the requests already made, stops on any non-follow decision, and otherwise
appends the sent request to via. Returns the hop count and the trace at
ErrTooManyRedirects, none on any other outcome or if fuel runs out. -/
def driveSelfRedirect (c : Client) (req : Request) (via : List Request)
    (t : List Redirects) (now : Int) : Nat → Option (Nat × List Redirects)
  | 0 => none
  | fuel + 1 =>
    let step := Client.FollowRedirects c now req via (some t)
    match step.decision, step.trace with
    | .tooManyRedirects nb, some t2 => some (nb, t2)
    | .follow, some t2 => driveSelfRedirect c req (via ++ [step.req]) t2 now fuel
    | _, _ => none

/-! ## OAuth2 client credentials -/

/-- TokenResponse (RFC 6749 section 5.1). Token and RefreshToken are
hided.String values, modelled by their underlying strings; ExpiresIn is the
declared lifetime in seconds, ExpireAt the absolute expiry instant. -/
structure TokenResponse where
  Token : String
  TokenType : String
  ExpiresIn : Int
  RefreshToken : String
  Scope : String
  ExpireAt : Int
deriving DecidableEq

/-- ErrorResponse (RFC 6749 section 5.2). -/
structure ErrorResponse where
  Error : String
  ErrorDescription : String
  ErrorURI : String
deriving DecidableEq

/-- oauth2.Response: the unmarshal target embedding both response forms.
The Go struct embeds them anonymously; tokenPart carries the promoted
TokenResponse fields. -/
structure OAuth2Response where
  tokenPart : TokenResponse
  errorPart : ErrorResponse
deriving DecidableEq

/-- Modelled from the spec: hided.String.IsEmpty is called by newToken but
its definition is not among the given sources. The spec requires the parsed
token value to be non-empty, so IsEmpty holds exactly on the empty
underlying string. -/
def hidedIsEmpty (s : String) : Bool := s = ""

/-- The errors newToken can return: the three validation errors, or an error
propagated from the client.Do call. -/
inductive TokenError
  | unexpectedStatusCode
  | emptyBody
  | bodyUnmarshaler
  | doError (e : String)
deriving DecidableEq

/-- Where the client credentials are sent. -/
inductive CredsPlacement
  | inHeader
  | inBody
deriving DecidableEq

/-- oauth2.Config: client credentials and endpoint URLs. -/
structure OAuth2Config where
  ClientID : String
  ClientSecret : String
  Scopes : List String
  EndpointURL : String
  EndpointAuth : String
  EndpointRefresh : String
deriving DecidableEq

/-- ClientCredentials authenticator state (the logger and embedded HTTP
client are collaborators, not observable by the claims). -/
structure ClientCredentials where
  Config : OAuth2Config
  ClientAuth : CredsPlacement
  Token : TokenResponse
deriving DecidableEq

/-- What the client.Do collaborator call inside newToken produces when it
returns without error: the response status, the raw body, and the
OAuth2Response the unmarshaler parsed from the body. -/
structure DoResult where
  StatusCode : Int
  Body : String
  parsed : OAuth2Response
deriving DecidableEq

/-- newToken, from the point where the token request built from the config
(form-encoded POST with grant_type, scopes and credentials) has been executed
by the embedded client: validates the outcome and replaces the cached token
only when every check passes, setting its expiry to now plus the declared
lifetime. Returns the state after the call together with the error. -/
def ClientCredentials.newToken (g : ClientCredentials)
    (res : Except String DoResult) (now : Int) :
    ClientCredentials × Option TokenError :=
  match res with
  | .error e => (g, some (.doError e))
  | .ok r =>
    if r.StatusCode ≠ 200 then (g, some .unexpectedStatusCode)
    else if r.Body.length = 0 then (g, some .emptyBody)
    else if hidedIsEmpty r.parsed.tokenPart.Token then (g, some .bodyUnmarshaler)
    else
      let tok := r.parsed.tokenPart
      ({ g with Token := { tok with ExpireAt := now + tok.ExpiresIn } }, none)

/-! ## Concrete inputs for the counterexamples and witnesses -/

/-- A base URL used by the concrete scenarios. -/
def exURL : URLm :=
  { Scheme := "https", Host := "example.com", Path := "/", RawQuery := "" }

/-- What Clone actually guarantees for the two maps. h is the heap before
the clone, h2 the heap after, c the source client and cl the clone:
observable contents equal at clone time; fresh, distinct map cells, so key
insertions, updates and deletions through one side's map cells never change
the other side's stored maps; the clone's header value slices are fresh, so
in-place slice writes through them leave the source's observable header and
query unchanged, and writes through the source's header or query slices
leave the clone's observable header unchanged; but the clone's stored query
map is the very same table of slice addresses as the source's
(maps.Clone is shallow), so its value slices are shared. -/
def cloneMapsSpec (h h2 : Heap) (c cl : Client) : Prop :=
  (h2.derefMap (h2.lookup cl.headerRef) = h.derefMap (h.lookup c.headerRef) ∧
   h2.derefMap (h2.lookup cl.queryRef) = h.derefMap (h.lookup c.queryRef)) ∧
  (cl.headerRef ≠ c.headerRef ∧ cl.queryRef ≠ c.queryRef ∧
   cl.headerRef ≠ c.queryRef ∧ cl.queryRef ≠ c.headerRef) ∧
  (∀ f : RefMap → RefMap,
    (h2.updateAt cl.headerRef f).lookup c.headerRef = h2.lookup c.headerRef ∧
    (h2.updateAt cl.headerRef f).lookup c.queryRef = h2.lookup c.queryRef ∧
    (h2.updateAt cl.queryRef f).lookup c.headerRef = h2.lookup c.headerRef ∧
    (h2.updateAt cl.queryRef f).lookup c.queryRef = h2.lookup c.queryRef) ∧
  (∀ f : RefMap → RefMap,
    (h2.updateAt c.headerRef f).lookup cl.headerRef = h2.lookup cl.headerRef ∧
    (h2.updateAt c.headerRef f).lookup cl.queryRef = h2.lookup cl.queryRef ∧
    (h2.updateAt c.queryRef f).lookup cl.headerRef = h2.lookup cl.headerRef ∧
    (h2.updateAt c.queryRef f).lookup cl.queryRef = h2.lookup cl.queryRef) ∧
  (∀ a ∈ (h2.lookup cl.headerRef).map Prod.snd, ∀ g : List String → List String,
    (h2.updateSlice a g).derefMap (h2.lookup c.headerRef) =
      h2.derefMap (h2.lookup c.headerRef) ∧
    (h2.updateSlice a g).derefMap (h2.lookup c.queryRef) =
      h2.derefMap (h2.lookup c.queryRef)) ∧
  (∀ a ∈ (h2.lookup c.headerRef).map Prod.snd ++ (h2.lookup c.queryRef).map Prod.snd,
    ∀ g : List String → List String,
    (h2.updateSlice a g).derefMap (h2.lookup cl.headerRef) =
      h2.derefMap (h2.lookup cl.headerRef)) ∧
  h2.lookup cl.queryRef = h.lookup c.queryRef

/-- A client whose redirect limit is zero, redirect following enabled. -/
def cexClientC3 : Client :=
  { closed := false, closerCount := 0,
    Options := { OptDefault with MaxRedirect := 0 },
    headerRef := 0, queryRef := 1, URL := exURL, ErrorHistory := [] }

/-- The self-redirecting candidate request of the C3 scenario. -/
def cexReqC3 : Request :=
  { url := exURL, header := [], responseStatus := "302 Found" }

/-- A client with an empty error history for the C6 scenario. -/
def cexClientC6 : Client :=
  { closed := false, closerCount := 0, Options := OptDefault,
    headerRef := 0, queryRef := 1, URL := exURL, ErrorHistory := [] }

/-- A heap holding one header map and one query map, each owning one value
slice. -/
def exHeap : Heap :=
  { maps := [[("A", 0)], [("q", 1)]], slices := [["x"], ["1"]] }

/-- An open client owning the two maps of exHeap. -/
def exClient : Client :=
  { closed := false, closerCount := 0, Options := OptDefault,
    headerRef := 0, queryRef := 1, URL := exURL, ErrorHistory := [] }

/-- The same client, closed. -/
def exClosedClient : Client := { exClient with closed := true }

/-- The heap after cloning exClient over exHeap: the header's value slice
copied into fresh slice 2, two fresh map cells, the query cell repeating
the source's slice address 1. -/
def exHeapAfterClone : Heap :=
  { maps := [[("A", 0)], [("q", 1)], [("A", 2)], [("q", 1)]],
    slices := [["x"], ["1"], ["x"]] }

/-- The clone of exClient: fresh addresses 2 and 3. -/
def exCloneClient : Client := { exClient with headerRef := 2, queryRef := 3 }

/-- A cross-host candidate request carrying an Authorization header. -/
def c5Req : Request :=
  { url := { exURL with Host := "other.example.net" },
    header := [("Authorization", "Basic abc")], responseStatus := "302 Found" }

/-! ## Theorems -/

/-- Helper: a filter by a weaker predicate can be dropped before a filter by
a stronger one. -/
theorem filter_filter_of_imp {α : Type} (l : List α) (p q : α → Bool)
    (h : ∀ x, p x = true → q x = true) : (l.filter q).filter p = l.filter p := by
  induction l with
  | nil => rfl
  | cons a rest ih =>
    by_cases hq : q a = true
    · by_cases hp : p a = true <;> simp [List.filter_cons, hq, hp, ih]
    · have hp : ¬ p a = true := fun hpa => hq (h a hpa)
      simp [List.filter_cons, hq, hp, ih]

/-- Helper: deleting a header removes every value stored under its name. -/
theorem getHeader_delHeader_self (hd : List (String × String)) (k : String) :
    getHeader (delHeader hd k) k = [] := by
  simp only [getHeader, delHeader]
  have : List.filter (fun p => decide (p.1 = k)) (List.filter (fun p => decide (p.1 ≠ k)) hd) = [] := by
    rw [List.filter_eq_nil_iff]
    intro a ha
    have hmem := (List.mem_filter.mp ha).2
    simp at hmem ⊢
    exact hmem
  rw [this]
  rfl

/-- Helper: deleting one header leaves the values of a differently named
header unchanged. -/
theorem getHeader_delHeader_ne (hd : List (String × String)) (k k2 : String)
    (hne : k ≠ k2) : getHeader (delHeader hd k2) k = getHeader hd k := by
  simp only [getHeader, delHeader]
  rw [filter_filter_of_imp]
  intro x hx
  simp at hx ⊢
  rw [hx]
  exact hne

/-- Helper: mutating the heap at one address does not change the lookup at a
different address. -/
theorem Heap.lookup_updateAt_ne (h : Heap) {i j : Nat} (f : RefMap → RefMap)
    (hij : i ≠ j) : (h.updateAt i f).lookup j = h.lookup j := by
  simp only [Heap.updateAt, Heap.lookup, List.getD_eq_getElem?_getD]
  rw [List.getElem?_set_ne hij]

/-- C1: for every Digest authenticator, when QOP is auth or auth-int the
response is hash(A1):nonce:nc:cnonce:qop:hash(A2); for any other QOP it is
hash(A1):nonce:hash(A2), with the hash selected by the Algorithm parameter. -/
theorem C1_digest_response (prim : HashPrims) (d : Digest) (a1 a2 : String) :
    ((d.Parameters.QOP = DigestQOPAuth ∨ d.Parameters.QOP = DigestQOPAuthInt) →
      Digest.Response prim d a1 a2 =
        d.Parameters.Hash prim a1 ++ ":" ++ d.Parameters.Nonce ++ ":" ++
        d.Parameters.NC ++ ":" ++ d.Parameters.CNonce ++ ":" ++
        d.Parameters.QOP ++ ":" ++ d.Parameters.Hash prim a2) ∧
    (¬(d.Parameters.QOP = DigestQOPAuth ∨ d.Parameters.QOP = DigestQOPAuthInt) →
      Digest.Response prim d a1 a2 =
        d.Parameters.Hash prim a1 ++ ":" ++ d.Parameters.Nonce ++ ":" ++
        d.Parameters.Hash prim a2) := by
  constructor <;> intro h
  · rw [Digest.Response, if_pos h]
    simp [stringsJoin, DigestSeparator, String.append_assoc]
  · rw [Digest.Response, if_neg h]
    simp [stringsJoin, DigestSeparator, String.append_assoc]

/-- C2: A1 is username:realm:password, or for -sess algorithms
hash(username:realm:password):nonce:cnonce; A2 is method:uri:hash(body) under
auth-int and method:uri for every other QOP. -/
theorem C2_digest_a1_a2 (prim : HashPrims) (d : Digest) (method body : String) :
    (String.endsWith d.Parameters.Algorithm "-sess" = false →
      Digest.A1 prim d = d.Username ++ ":" ++ d.Parameters.Realm ++ ":" ++ d.Password) ∧
    (String.endsWith d.Parameters.Algorithm "-sess" = true →
      Digest.A1 prim d =
        d.Parameters.Hash prim (d.Username ++ ":" ++ d.Parameters.Realm ++ ":" ++ d.Password)
          ++ ":" ++ d.Parameters.Nonce ++ ":" ++ d.Parameters.CNonce) ∧
    (d.Parameters.QOP = DigestQOPAuthInt →
      Digest.A2 prim d method body =
        method ++ ":" ++ d.Parameters.URI ++ ":" ++ d.Parameters.Hash prim body) ∧
    (d.Parameters.QOP ≠ DigestQOPAuthInt →
      Digest.A2 prim d method body = method ++ ":" ++ d.Parameters.URI) := by
  refine ⟨fun h => ?_, fun h => ?_, fun h => ?_, fun h => ?_⟩
  · simp [Digest.A1, h, stringsJoin, DigestSeparator, String.append_assoc]
  · simp [Digest.A1, h, stringsJoin, DigestSeparator, String.append_assoc]
  · rw [Digest.A2, if_pos h]
    simp [stringsJoin, DigestSeparator, String.append_assoc]
  · rw [Digest.A2, if_neg h]
    simp [stringsJoin, DigestSeparator, String.append_assoc]

/-- C4: the spec requires New to rewrite an http scheme to https when
OnlyHTTPS is set, and the constructor's own documentation and debug log say
it enforces HTTPS; but the source mutates its local parsedURL after main.URL
was already copied from it, so the constructed client keeps scheme http. -/
theorem C4_scheme_bug :
    ∃ c : Client,
      (New { maps := [] }
        { Scheme := "http", Host := "example.com", Path := "", RawQuery := "" }
        (some OptDefault)).2 = .ok c ∧
      OptDefault.OnlyHTTPS = true ∧ c.URL.Scheme = "http" ∧ c.URL.Scheme ≠ "https" := by
  refine ⟨_, rfl, rfl, rfl, by decide⟩

/-- C6 counterexample: on a client with an empty (hence empty post-prune)
error history, a status-500 request makes calculateErrorRate return 100, not
the 0 the claim states for an empty post-prune history. -/
theorem C6_counterexample :
    List.filter (fun e => decide (e.Timestamp > 1000 - 60)) cexClientC6.ErrorHistory = [] ∧
    (Client.calculateErrorRate cexClientC6 500 1000).2 = 100 ∧ (100 : ℚ) ≠ 0 := by
  refine ⟨rfl, ?_, by norm_num⟩
  show ((1 : ℚ) / (1 : ℚ) * 100) = 100
  norm_num

/-- C6 (amended): calculateErrorRate keeps exactly the entries whose
timestamp is after now minus 60 seconds, appends the entry of the current
request (an error exactly when the status is at least 400), and returns 100
times the error count over the total count of the stored history; the
appended entry makes that history non-empty, so with an empty post-prune
history the rate is decided by the current request alone: 100 for an error
status and 0 otherwise; entries at least 60 seconds old survive in neither
the numerator nor the denominator. -/
theorem C6_error_rate (c : Client) (status now : Int) :
    (Client.calculateErrorRate c status now).1.ErrorHistory =
      (c.ErrorHistory.filter fun e => e.Timestamp > now - 60) ++
        [{ URL := urlString c.URL, StatusCode := status, Timestamp := now,
           IsError := 400 ≤ status }] ∧
    (Client.calculateErrorRate c status now).2 =
      100 * ((((c.ErrorHistory.filter fun (e : ErrorHistory) => e.Timestamp > now - 60) ++
          [({ URL := urlString c.URL, StatusCode := status, Timestamp := now,
              IsError := 400 ≤ status } : ErrorHistory)]).filter
            fun (e : ErrorHistory) => e.IsError).length : ℚ) /
        ((((c.ErrorHistory.filter fun (e : ErrorHistory) => e.Timestamp > now - 60) ++
          [({ URL := urlString c.URL, StatusCode := status, Timestamp := now,
              IsError := 400 ≤ status } : ErrorHistory)]).length : Nat) : ℚ) ∧
    ((ErrorHistory.IsError { URL := urlString c.URL, StatusCode := status,
                             Timestamp := now, IsError := 400 ≤ status }) = true ↔
      400 ≤ status) ∧
    ((c.ErrorHistory.filter fun e => e.Timestamp > now - 60) = [] →
      (Client.calculateErrorRate c status now).2 =
        if 400 ≤ status then (100 : ℚ) else 0) ∧
    (∀ e ∈ c.ErrorHistory, e.Timestamp ≤ now - 60 →
      e ∉ (Client.calculateErrorRate c status now).1.ErrorHistory) := by
  have hH : (Client.calculateErrorRate c status now).1.ErrorHistory =
      (c.ErrorHistory.filter fun e => e.Timestamp > now - 60) ++
        [{ URL := urlString c.URL, StatusCode := status, Timestamp := now,
           IsError := 400 ≤ status }] := by
    simp [Client.calculateErrorRate]
  refine ⟨hH, ?_, by simp, ?_, ?_⟩
  · simp only [Client.calculateErrorRate]
    rw [if_neg (by simp)]
    simp only [List.length_append, List.length_cons, List.length_nil]
    push_cast
    ring
  · intro hempty
    simp only [Client.calculateErrorRate, hempty]
    rw [if_neg (by simp)]
    by_cases hs : 400 ≤ status <;> simp [hs]
  · intro e hmem hold
    rw [hH]
    simp only [List.mem_append, List.mem_filter, List.mem_singleton]
    rintro (⟨_, hkeep⟩ | hcur)
    · simp at hkeep
      omega
    · have : e.Timestamp = now := by rw [hcur]
      omega

/-- C7: newToken returns unexpectedStatusCode on any non-200 status,
emptyBody on a 200 with an empty body, and the missing-token error when the
parsed token value is empty; in each error case the cached Token is left
unchanged, and only on success is it replaced, with expiry now plus the
declared lifetime. -/
theorem C7_newtoken (g : ClientCredentials) (r : DoResult) (now : Int) :
    (r.StatusCode ≠ 200 →
      ClientCredentials.newToken g (.ok r) now = (g, some .unexpectedStatusCode)) ∧
    (r.StatusCode = 200 → r.Body = "" →
      ClientCredentials.newToken g (.ok r) now = (g, some .emptyBody)) ∧
    (r.StatusCode = 200 → r.Body ≠ "" → r.parsed.tokenPart.Token = "" →
      ClientCredentials.newToken g (.ok r) now = (g, some .bodyUnmarshaler)) ∧
    (r.StatusCode = 200 → r.Body ≠ "" → r.parsed.tokenPart.Token ≠ "" →
      ClientCredentials.newToken g (.ok r) now =
        ({ g with Token := { r.parsed.tokenPart with
             ExpireAt := now + r.parsed.tokenPart.ExpiresIn } }, none)) := by
  refine ⟨fun h1 => ?_, fun h1 h2 => ?_, fun h1 h2 h3 => ?_, fun h1 h2 h3 => ?_⟩
  · simp [ClientCredentials.newToken, h1]
  · simp [ClientCredentials.newToken, h1, h2]
  · have hb : r.Body.length ≠ 0 := fun hz => h2 (String.ext (List.length_eq_zero.mp hz))
    simp [ClientCredentials.newToken, h1, hb, hidedIsEmpty, h3]
  · have hb : r.Body.length ≠ 0 := fun hz => h2 (String.ext (List.length_eq_zero.mp hz))
    simp [ClientCredentials.newToken, h1, hb, hidedIsEmpty, h3]

/-- C8: a Basic authenticator built from a non-empty user id and non-empty
secret always returns the Authorization header carrying the Basic prefix and
the standard base64 of userid, colon, password, with a nil error, the same
value for every method, url and body. -/
theorem C8_basic_header (uid pwd : String) (h1 : uid ≠ "") (h2 : pwd ≠ "")
    (method u body : String) :
    NewBasic uid pwd = .ok { UserID := uid, Password := pwd } ∧
    Basic.Header { UserID := uid, Password := pwd } method u body =
      (BasicHeaderName, BasicValuePrefix ++ BasicUserPass uid pwd, none) ∧
    (∀ m2 u2 b2, Basic.Header { UserID := uid, Password := pwd } method u body =
      Basic.Header { UserID := uid, Password := pwd } m2 u2 b2) := by
  refine ⟨?_, rfl, fun _ _ _ => rfl⟩
  simp [NewBasic, h1, h2]

/-- C8 witness at the RFC 2617 credentials. -/
theorem C8_basic_header_witness :
    NewBasic "Aladdin" "open sesame" =
      .ok { UserID := "Aladdin", Password := "open sesame" } ∧
    Basic.Header { UserID := "Aladdin", Password := "open sesame" }
        "GET" "https://example.com/" "" =
      (BasicHeaderName, BasicValuePrefix ++ BasicUserPass "Aladdin" "open sesame", none) ∧
    (∀ m2 u2 b2, Basic.Header { UserID := "Aladdin", Password := "open sesame" }
        "GET" "https://example.com/" "" =
      Basic.Header { UserID := "Aladdin", Password := "open sesame" } m2 u2 b2) :=
  C8_basic_header "Aladdin" "open sesame" (by decide) (by decide)
    "GET" "https://example.com/" ""

/-- Sanity: the embedded pipeline reproduces the RFC 2617 section 2 example
value. -/
theorem basicUserPass_rfc_example :
    BasicUserPass "Aladdin" "open sesame" = "QWxhZGRpbjpvcGVuIHNlc2FtZQ==" := by
  rfl

/-- C10: on a closed client Clone returns the nil sentinel, and NewChild
dereferences that nil clone with no check, so it panics instead of
returning. -/
theorem C10_closed_client (h : Heap) (c : Client) (path : String)
    (hcl : c.closed = true) :
    Client.Clone h c = (h, c, none) ∧ Client.NewChild h c path = .nilPanic := by
  constructor
  · simp [Client.Clone, hcl]
  · simp [Client.NewChild, Client.Clone, hcl]

/-- C10 witness on a concrete closed client. -/
theorem C10_closed_client_witness :
    Client.Clone exHeap exClosedClient = (exHeap, exClosedClient, none) ∧
    Client.NewChild exHeap exClosedClient "/v1" = .nilPanic :=
  C10_closed_client exHeap exClosedClient "/v1" rfl

/-- Helper: appending two map cells leaves every valid old address unchanged,
for any slice store. -/
theorem Heap.lookup_app2_old (h : Heap) (S : List (List String)) (A B : RefMap)
    {i : Nat} (hi : i < h.size) :
    Heap.lookup { maps := h.maps ++ [A] ++ [B], slices := S } i = h.lookup i := by
  simp only [Heap.size] at hi
  simp only [Heap.lookup]
  rw [List.getD_append _ _ _ _ (by simp; omega), List.getD_append _ _ _ _ hi]

/-- Helper: the first freshly appended map cell sits at the old size. -/
theorem Heap.lookup_app2_first (h : Heap) (S : List (List String)) (A B : RefMap) :
    Heap.lookup { maps := h.maps ++ [A] ++ [B], slices := S } h.maps.length = A := by
  simp only [Heap.lookup]
  rw [List.getD_append _ _ _ _ (by simp),
      List.getD_append_right _ _ _ _ (Nat.le_refl _)]
  simp

/-- Helper: the second freshly appended map cell sits just above the old
size. -/
theorem Heap.lookup_app2_second (h : Heap) (S : List (List String)) (A B : RefMap) :
    Heap.lookup { maps := h.maps ++ [A] ++ [B], slices := S } (h.maps.length + 1) = B := by
  simp only [Heap.lookup]
  rw [List.getD_append_right _ _ _ _ (by simp)]
  simp

/-- Helper: an in-place slice write does not change differently addressed
slices. -/
theorem Heap.sliceAt_updateSlice_ne (h : Heap) {i j : Nat}
    (g : List String → List String) (hij : i ≠ j) :
    (h.updateSlice i g).sliceAt j = h.sliceAt j := by
  simp only [Heap.updateSlice, Heap.sliceAt, List.getD_eq_getElem?_getD]
  rw [List.getElem?_set_ne hij]

/-- Helper: heaps agreeing on a stored map's slice addresses show the same
observable contents for it. -/
theorem Heap.derefMap_congr (h1 h2 : Heap) (m : RefMap)
    (hag : ∀ p ∈ m, h1.sliceAt p.2 = h2.sliceAt p.2) :
    h1.derefMap m = h2.derefMap m := by
  simp only [Heap.derefMap]
  exact List.map_congr_left fun p hp => by rw [hag p hp]

/-- Helper: an in-place slice write leaves the observable contents of every
stored map not holding the written address unchanged. -/
theorem Heap.derefMap_updateSlice_ne (h : Heap) (m : RefMap) (i : Nat)
    (g : List String → List String) (hne : ∀ p ∈ m, p.2 ≠ i) :
    (h.updateSlice i g).derefMap m = h.derefMap m :=
  Heap.derefMap_congr _ _ m fun p hp =>
    Heap.sliceAt_updateSlice_ne h g fun he => (hne p hp) he.symm

/-- Helper: allocating slices leaves the map store untouched. -/
theorem Heap.allocSlices_maps (kvs : GoMap) :
    ∀ h : Heap, (h.allocSlices kvs).1.maps = h.maps := by
  induction kvs with
  | nil => intro h; rfl
  | cons kv rest ih =>
    intro h
    obtain ⟨k, v⟩ := kv
    show (Heap.allocSlices { h with slices := h.slices ++ [v] } rest).1.maps = h.maps
    rw [ih]

/-- Helper: allocating slices preserves every old slice. -/
theorem Heap.allocSlices_sliceAt_old (kvs : GoMap) :
    ∀ (h : Heap) (b : Nat), b < h.sliceCount →
      (h.allocSlices kvs).1.sliceAt b = h.sliceAt b := by
  induction kvs with
  | nil => intro h b _; rfl
  | cons kv rest ih =>
    intro h b hb
    obtain ⟨k, v⟩ := kv
    show (Heap.allocSlices { h with slices := h.slices ++ [v] } rest).1.sliceAt b
      = h.sliceAt b
    rw [ih _ b (by simp [Heap.sliceCount] at hb ⊢; omega)]
    show (h.slices ++ [v]).getD b [] = h.slices.getD b []
    exact List.getD_append _ _ _ _ (by simpa [Heap.sliceCount] using hb)

/-- Helper: allocated slice addresses are fresh: at or above the old slice
count. -/
theorem Heap.allocSlices_fresh (kvs : GoMap) :
    ∀ h : Heap, ∀ p ∈ (h.allocSlices kvs).2, h.sliceCount ≤ p.2 := by
  induction kvs with
  | nil => intro h p hp; simp [Heap.allocSlices] at hp
  | cons kv rest ih =>
    intro h p hp
    obtain ⟨k, v⟩ := kv
    have hp2 : p ∈ ((k, h.slices.length) ::
        (Heap.allocSlices { h with slices := h.slices ++ [v] } rest).2) := hp
    rcases List.mem_cons.mp hp2 with he | hm
    · rw [he]
      exact Nat.le_refl _
    · have := ih _ p hm
      simp [Heap.sliceCount] at this ⊢
      omega

/-- Helper: the freshly allocated map shows exactly the requested contents. -/
theorem Heap.allocSlices_deref (kvs : GoMap) :
    ∀ h : Heap, (h.allocSlices kvs).1.derefMap (h.allocSlices kvs).2 = kvs := by
  induction kvs with
  | nil => intro h; rfl
  | cons kv rest ih =>
    intro h
    obtain ⟨k, v⟩ := kv
    show (Heap.allocSlices { h with slices := h.slices ++ [v] } rest).1.derefMap
        ((k, h.slices.length) ::
          (Heap.allocSlices { h with slices := h.slices ++ [v] } rest).2)
      = (k, v) :: rest
    have h1 : (Heap.allocSlices { h with slices := h.slices ++ [v] } rest).1.sliceAt
        h.slices.length = v := by
      rw [Heap.allocSlices_sliceAt_old rest _ _ (by simp [Heap.sliceCount])]
      show (h.slices ++ [v]).getD h.slices.length [] = v
      rw [List.getD_append_right _ _ _ _ (Nat.le_refl _)]
      simp
    simp only [Heap.derefMap, List.map_cons, List.cons.injEq]
    refine ⟨by rw [h1], ?_⟩
    simpa [Heap.derefMap] using ih { h with slices := h.slices ++ [v] }

/-- C9 (amended): Clone gives the clone fresh map cells whose observable
contents equal the source's at clone time; key insertions, updates and
deletions through either side's cells never change the other side's stored
maps; the header's value slices are deep copies, so in-place slice writes
through one side's header never change the other side's observable maps;
but the clone's query cell is the shallow maps.Clone of the source's,
sharing its value-slice addresses. -/
theorem C9_clone_maps (h : Heap) (c : Client) (h2 : Heap)
    (c2 cl : Client) (hcl : c.closed = false)
    (hh : c.headerRef < h.size) (hq : c.queryRef < h.size)
    (hha : ∀ p ∈ h.lookup c.headerRef, p.2 < h.sliceCount)
    (hqa : ∀ p ∈ h.lookup c.queryRef, p.2 < h.sliceCount)
    (he : Client.Clone h c = (h2, c2, some cl)) :
    cloneMapsSpec h h2 c cl := by
  have hclnot : ¬ c.closed = true := by simp [hcl]
  have hq2 : c.queryRef < h.maps.length := by simpa [Heap.size] using hq
  have hh2 : c.headerRef < h.maps.length := by simpa [Heap.size] using hh
  have hrun : Client.Clone h c =
      ({ maps := h.maps ++ [(h.allocSlices (h.derefMap (h.lookup c.headerRef))).2]
           ++ [h.lookup c.queryRef],
         slices := (h.allocSlices (h.derefMap (h.lookup c.headerRef))).1.slices },
       { c with closerCount := c.closerCount + 1 },
       some { closed := c.closed, closerCount := 0, Options := c.Options,
              headerRef := h.maps.length, queryRef := h.maps.length + 1,
              URL := c.URL, ErrorHistory := [] }) := by
    simp only [Client.Clone, if_neg hclnot, Heap.alloc]
    simp [Heap.allocSlices_maps, Heap.lookup, List.getD_append, hq2,
      List.getElem?_append, List.getElem?_eq_getElem]
  rw [hrun] at he
  injection he with e1 erest
  injection erest with e2 e3
  injection e3 with e3
  subst e1
  subst e3
  refine ⟨⟨?_, ?_⟩,
    ⟨by show h.maps.length ≠ c.headerRef; omega,
     by show h.maps.length + 1 ≠ c.queryRef; omega,
     by show h.maps.length ≠ c.queryRef; omega,
     by show h.maps.length + 1 ≠ c.headerRef; omega⟩,
    fun f => ⟨Heap.lookup_updateAt_ne _ f (by show h.maps.length ≠ c.headerRef; omega),
      Heap.lookup_updateAt_ne _ f (by show h.maps.length ≠ c.queryRef; omega),
      Heap.lookup_updateAt_ne _ f (by show h.maps.length + 1 ≠ c.headerRef; omega),
      Heap.lookup_updateAt_ne _ f (by show h.maps.length + 1 ≠ c.queryRef; omega)⟩,
    fun f => ⟨Heap.lookup_updateAt_ne _ f (by show c.headerRef ≠ h.maps.length; omega),
      Heap.lookup_updateAt_ne _ f (by show c.headerRef ≠ h.maps.length + 1; omega),
      Heap.lookup_updateAt_ne _ f (by show c.queryRef ≠ h.maps.length; omega),
      Heap.lookup_updateAt_ne _ f (by show c.queryRef ≠ h.maps.length + 1; omega)⟩,
    ?_, ?_, Heap.lookup_app2_second h _ _ _⟩
  · rw [Heap.lookup_app2_first h _ _ _]
    exact Heap.allocSlices_deref _ h
  · rw [Heap.lookup_app2_second h _ _ _]
    exact Heap.derefMap_congr _ _ _ fun p hp =>
      Heap.allocSlices_sliceAt_old _ h p.2 (hqa p hp)
  · intro a ha g
    rw [Heap.lookup_app2_first h _ _ _] at ha
    obtain ⟨p, hp, hpa⟩ := List.mem_map.mp ha
    have hfresh : h.sliceCount ≤ a := hpa ▸ Heap.allocSlices_fresh _ h p hp
    rw [Heap.lookup_app2_old h _ _ _ hh, Heap.lookup_app2_old h _ _ _ hq]
    constructor
    · exact Heap.derefMap_updateSlice_ne _ _ _ g fun p2 hp2 => by
        have := hha p2 hp2; omega
    · exact Heap.derefMap_updateSlice_ne _ _ _ g fun p2 hp2 => by
        have := hqa p2 hp2; omega
  · intro a ha g
    rw [Heap.lookup_app2_old h _ _ _ hh, Heap.lookup_app2_old h _ _ _ hq] at ha
    have halow : a < h.sliceCount := by
      rcases List.mem_append.mp ha with hm | hm <;>
        obtain ⟨p, hp, hpa⟩ := List.mem_map.mp hm
      · exact hpa ▸ hha p hp
      · exact hpa ▸ hqa p hp
    rw [Heap.lookup_app2_first h _ _ _]
    exact Heap.derefMap_updateSlice_ne _ _ _ g fun p hp => by
      have := Heap.allocSlices_fresh _ h p hp; omega

/-- C9 witness: the amended guarantees at the concrete two-map heap. -/
theorem C9_clone_maps_witness :
    cloneMapsSpec exHeap exHeapAfterClone exClient exCloneClient :=
  C9_clone_maps exHeap exClient exHeapAfterClone
    { exClient with closerCount := 1 } exCloneClient rfl (by decide) (by decide)
    (by decide) (by decide) rfl

/-- C9 counterexample: the clone's stored Query is the very slice-address
table of the source's, so the in-place element write clone.Query[q][0] =
"edited" (Go: maps.Clone shares the value slices) changes the source's
observable Query from [("q", ["1"])] to [("q", ["edited"])]: the claimed
full mutation independence fails for Query. -/
theorem C9_query_alias_counterexample :
    Client.Clone exHeap exClient =
      (exHeapAfterClone, { exClient with closerCount := 1 }, some exCloneClient) ∧
    exHeapAfterClone.lookup exCloneClient.queryRef = [("q", 1)] ∧
    exHeapAfterClone.lookup exClient.queryRef = [("q", 1)] ∧
    exHeapAfterClone.derefMap (exHeapAfterClone.lookup exClient.queryRef) =
      [("q", ["1"])] ∧
    (exHeapAfterClone.updateSlice 1 fun v => v.set 0 "edited").derefMap
        ((exHeapAfterClone.updateSlice 1 fun v => v.set 0 "edited").lookup
          exClient.queryRef) =
      [("q", ["edited"])] ∧
    ([("q", ["1"])] : GoMap) ≠ [("q", ["edited"])] :=
  ⟨rfl, rfl, rfl, rfl, rfl, by decide⟩

/-- C5: during redirect handling the Authorization header of the outgoing
request is deleted exactly when the target host differs from the client's
base host and FollowAuth is disabled; on a same-host redirect, or with
FollowAuth enabled, it is preserved (the Referer deletion and the HTTPS
upgrade leave it untouched). -/
theorem C5_auth_header_strip (c : Client) (now : Int) (req : Request)
    (via : List Request) (t : List Redirects)
    (hF : c.Options.Follow = true) :
    getHeader (Client.FollowRedirects c now req via (some t)).req.header "Authorization" =
      (if req.url.Host ≠ c.URL.Host ∧ c.Options.FollowAuth = false then []
       else getHeader req.header "Authorization") := by
  have hFnot : ¬ ¬ c.Options.Follow = true := fun hn => hn hF
  simp only [Client.FollowRedirects, if_neg hFnot]
  by_cases hAuth : req.url.Host ≠ c.URL.Host ∧ c.Options.FollowAuth = false
  · have hA2 : req.url.Host ≠ c.URL.Host ∧ ¬ c.Options.FollowAuth = true := by
      simpa [Bool.not_eq_true] using hAuth
    rw [if_pos hAuth]
    by_cases hRef : c.Options.FollowReferer = true
    · have hRnot : ¬ ¬ c.Options.FollowReferer = true := fun hn => hn hRef
      simp only [if_neg hRnot, if_pos hA2]
      split
      · simp [getHeader_delHeader_self]
      · split <;> simp [getHeader_delHeader_self, apply_ite Request.header]
    · simp only [if_pos hRef]
      have hA3 : (Request.url { req with header := delHeader req.header "Referer" }).Host ≠ c.URL.Host ∧
          ¬ c.Options.FollowAuth = true := hA2
      simp only [if_pos hA3]
      split
      · simp [getHeader_delHeader_self]
      · split <;> simp [getHeader_delHeader_self, apply_ite Request.header]
  · have hA2 : ¬ (req.url.Host ≠ c.URL.Host ∧ ¬ c.Options.FollowAuth = true) := by
      simpa [Bool.not_eq_true] using hAuth
    rw [if_neg hAuth]
    by_cases hRef : c.Options.FollowReferer = true
    · have hRnot : ¬ ¬ c.Options.FollowReferer = true := fun hn => hn hRef
      simp only [if_neg hRnot, if_neg hA2]
      split
      · simp
      · split <;> simp [apply_ite Request.header]
    · simp only [if_pos hRef]
      have hA3 : ¬ ((Request.url { req with header := delHeader req.header "Referer" }).Host ≠ c.URL.Host ∧
          ¬ c.Options.FollowAuth = true) := hA2
      simp only [if_neg hA3]
      split
      · simp [getHeader_delHeader_ne _ "Authorization" "Referer" (by decide)]
      · split <;> simp [apply_ite Request.header,
          getHeader_delHeader_ne _ "Authorization" "Referer" (by decide)]

/-- C5 witness: a concrete cross-host hop against the default options. -/
theorem C5_auth_header_strip_witness :
    getHeader (Client.FollowRedirects exClient 0 c5Req [] (some [])).req.header
        "Authorization" =
      (if c5Req.url.Host ≠ exClient.URL.Host ∧ exClient.Options.FollowAuth = false
       then [] else getHeader c5Req.header "Authorization") :=
  C5_auth_header_strip exClient 0 c5Req [] [] rfl

/-- Helper: with following enabled and a live trace, every invocation of the
redirect callback appends exactly one entry to the trace, whatever it
decides. -/
theorem followRedirects_trace_length (c : Client) (now : Int) (req : Request)
    (via : List Request) (t : List Redirects)
    (hF : c.Options.Follow = true) :
    ((Client.FollowRedirects c now req via (some t)).trace).map List.length =
      some (t.length + 1) := by
  have hFnot : ¬ ¬ c.Options.Follow = true := fun hn => hn hF
  simp only [Client.FollowRedirects, if_neg hFnot]
  split <;> split <;> split <;> simp

/-- Helper: once the prior-hop count reaches the redirect limit the callback
returns ErrTooManyRedirects carrying that count. -/
theorem followRedirects_decision_too_many (c : Client) (now : Int) (req : Request)
    (via : List Request) (t : List Redirects)
    (hF : c.Options.Follow = true)
    (hge : (via.length : Int) ≥ c.Options.MaxRedirect) :
    (Client.FollowRedirects c now req via (some t)).decision =
      .tooManyRedirects via.length := by
  have hFnot : ¬ ¬ c.Options.Follow = true := fun hn => hn hF
  simp only [Client.FollowRedirects, if_neg hFnot]
  split <;> split <;> simp_all

/-- Helper: below the limit, with no rate limiter, the callback lets the hop
proceed. -/
theorem followRedirects_decision_follow (c : Client) (now : Int) (req : Request)
    (via : List Request) (t : List Redirects)
    (hF : c.Options.Follow = true) (hRL : c.Options.RateLimiter = none)
    (hlt : ¬ ((via.length : Int) ≥ c.Options.MaxRedirect)) :
    (Client.FollowRedirects c now req via (some t)).decision = .follow := by
  have hFnot : ¬ ¬ c.Options.Follow = true := fun hn => hn hF
  simp only [Client.FollowRedirects, if_neg hFnot]
  split <;> split <;> simp_all [hRL]

/-- Helper: the self-redirect loop invariant. With the limit at N, starting
from a via list of sent requests and a trace, the loop ends in
ErrTooManyRedirects with hop count N, having grown the trace by one entry
per invocation. -/
theorem driveSelf_too_many (c : Client) (req : Request) (now : Int) (N : Nat)
    (hF : c.Options.Follow = true) (hRL : c.Options.RateLimiter = none)
    (hMR : c.Options.MaxRedirect = (N : Int)) :
    ∀ (fuel : Nat) (via : List Request) (t : List Redirects),
      1 ≤ via.length → via.length ≤ N → N + 1 = fuel + via.length →
      ∃ t2, driveSelfRedirect c req via t now fuel = some (N, t2) ∧
        t2.length = t.length + (N + 1 - via.length) := by
  intro fuel
  induction fuel with
  | zero => intro via t h1 h2 h3; omega
  | succ f ih =>
    intro via t h1 h2 h3
    obtain ⟨t2, ht2, hlen2⟩ :=
      Option.map_eq_some'.mp (followRedirects_trace_length c now req via t hF)
    by_cases hend : via.length = N
    · have hge : (via.length : Int) ≥ c.Options.MaxRedirect := by rw [hMR]; omega
      have hdec := followRedirects_decision_too_many c now req via t hF hge
      simp only [driveSelfRedirect]
      rw [hdec, ht2]
      exact ⟨t2, by rw [hend], by omega⟩
    · have hlt : ¬ ((via.length : Int) ≥ c.Options.MaxRedirect) := by
        rw [hMR]; omega
      have hdec := followRedirects_decision_follow c now req via t hF hRL hlt
      simp only [driveSelfRedirect]
      rw [hdec, ht2]
      obtain ⟨t3, heq, hlen3⟩ := ih
        (via ++ [(Client.FollowRedirects c now req via (some t)).req]) t2
        (by simp) (by simp; omega) (by simp; omega)
      exact ⟨t3, heq, by simp at hlen3; omega⟩

/-- C3 (amended): with redirect following enabled, no rate limiter and
MaxRedirect = N for N at least 1, a target that always redirects to itself
makes the loop fail with ErrTooManyRedirects on the invocation whose prior
hops number N, that is while deciding request N+1, and the trace holds
exactly N entries at failure time; for N = 0 the very first invocation
fails with one trace entry already recorded, not zero. -/
theorem C3_redirect_limit (c : Client) (req0 req : Request) (now : Int) (N : Nat)
    (hF : c.Options.Follow = true) (hRL : c.Options.RateLimiter = none)
    (hMR : c.Options.MaxRedirect = (N : Int)) (hN : 1 ≤ N) :
    ∃ t2, driveSelfRedirect c req [req0] [] now N = some (N, t2) ∧
      t2.length = N := by
  obtain ⟨t2, heq, hlen⟩ := driveSelf_too_many c req now N hF hRL hMR N [req0] []
    (by simp) (by simpa using hN) (by simp)
  exact ⟨t2, heq, by simpa using hlen⟩

/-- C3 witness: the concrete MaxRedirect = 2 self-redirect scenario fails
while deciding the third request, with two trace entries. -/
theorem C3_redirect_limit_witness :
    ∃ t2, driveSelfRedirect exClient cexReqC3 [cexReqC3] [] 0 2 = some (2, t2) ∧
      t2.length = 2 :=
  C3_redirect_limit exClient cexReqC3 cexReqC3 0 2 rfl rfl rfl (by omega)

/-- C3 counterexample: with MaxRedirect = 0 the failure happens on the first
invocation and the trace then holds one entry, not the zero entries the
claim's trace-length-equals-N clause demands. -/
theorem C3_counterexample :
    driveSelfRedirect cexClientC3 cexReqC3 [cexReqC3] [] 0 1 =
      some (1, [{ URL := "https://example.com/", Status := "302 Found", From := "", FromStatus := "", Timestamp := 0 }]) ∧
    cexClientC3.Options.MaxRedirect = 0 ∧
    ([({ URL := "https://example.com/", Status := "302 Found", From := "", FromStatus := "", Timestamp := 0 } : Redirects)].length ≠ 0) :=
  ⟨rfl, rfl, by decide⟩
